import Mathlib

/-!
Shallow embedding of the robot-trading bot (signal_generator.py and
trade_executor.py).  Python floats are modelled as exact rationals;
Python's builtin `round` (banker's rounding, round-half-to-even) is
modelled by `pyRound`; `round(x, 2)` by `round2`.  Pandas data frames of
OHLC rows are modelled as lists of `Bar` records, oldest first, so that
`iloc[-1]` is `List.getLast?` and the frame's monotone datetime index is
the list position.  Calls into the MetaTrader 5 terminal (account info,
symbol info, tick quotes, margin calculation, order_send) are modelled
as explicit parameters: the account balance, free margin, a `SymbolInfo`
record, a `Tick` quote and a margin oracle `ℚ → Option ℚ` (`none` when
`order_calc_margin` returns None or raises).  `order_send` side effects
are modelled by returning the list of order requests that would be sent.
-/

namespace RobotTrading

/-- String constants used by the bot's signal protocol. -/
def NEUTRAL : String := "NEUTRAL"

def BUY : String := "BUY"

def SELL : String := "SELL"

def M5 : String := "M5"

/-- One OHLC row of a data frame.  `atr` is `none` when the frame has no
'ATR' column (Python code reads it with `.get('ATR', 0.0)` or guards with
`'ATR' not in last_m5`). -/
structure Bar where
  open_ : ℚ
  high : ℚ
  low : ℚ
  close : ℚ
  atr : Option ℚ := none
  deriving Repr, DecidableEq

/-- The fields of `mt5.symbol_info` the executor reads. -/
structure SymbolInfo where
  trade_tick_value : ℚ
  volume_min : ℚ
  volume_max : ℚ
  volume_step : ℚ
  point : ℚ
  deriving Repr, DecidableEq

/-- The fields of `mt5.symbol_info_tick` the executor reads. -/
structure Tick where
  ask : ℚ
  bid : ℚ
  deriving Repr, DecidableEq

/-- One order request as filled in by `execute_trade` before `order_send`. -/
structure OrderRequest where
  volume : ℚ
  price : ℚ
  sl : ℚ
  tp : ℚ
  comment : String
  magic : ℕ
  deriving Repr, DecidableEq

/-- The value returned by `SignalGenerator.check_signal`: either a plain
string (e.g. 'NEUTRAL') or a dict with keys 'action', 'tps' and
optionally 'sl_custom'. -/
inductive SignalResult where
  | str (s : String)
  | dict (action : String) (tps : List ℚ) (sl_custom : Option ℚ)
  deriving Repr, DecidableEq

/-- Python's builtin `round` on exact values: round half to even. -/
def pyRound (x : ℚ) : ℤ :=
  if x - ⌊x⌋ = 1 / 2 then (if 2 ∣ ⌊x⌋ then ⌊x⌋ else ⌊x⌋ + 1) else round x

/-- Python's `round(x, 2)` on exact values. -/
def round2 (x : ℚ) : ℚ := (pyRound (100 * x) : ℚ) / 100

/-- `TradeExecutor._update_high_water_mark`: returns the new (or
unchanged) stored mark together with whether the memory file is
written. -/
def update_high_water_mark (previous_high current_balance : ℚ) : ℚ × Bool :=
  if current_balance > previous_high then (current_balance, true)
  else (previous_high, false)

/-- The stored high-water mark after a sequence of balance observations. -/
def hwmRun (init : ℚ) : List ℚ → ℚ
  | [] => init
  | b :: bs => hwmRun (update_high_water_mark init b).1 bs

/-- `TradeExecutor.calculate_lot_size` up to and including the min/max
clamp (everything before the margin guard), given the already-updated
high-water mark. -/
def preMarginLot (high_water_mark : ℚ) (sym : SymbolInfo) (sl_distance_points : ℚ) : ℚ :=
  let risk_cash := high_water_mark / 10
  let lot₀ := risk_cash / (sl_distance_points * sym.trade_tick_value)
  let lot₁ :=
    if 0 < sym.volume_step then (pyRound (lot₀ / sym.volume_step) : ℚ) * sym.volume_step
    else lot₀
  let lot₂ := round2 lot₁
  let lot₃ := if lot₂ < sym.volume_min then sym.volume_min else lot₂
  if sym.volume_max < lot₃ then sym.volume_max else lot₃

/-- `TradeExecutor.calculate_lot_size`.  `marginAt v` is the result of
`mt5.order_calc_margin(BUY, symbol, v, ask)`; `none` models both a None
return and an exception (both of which let the clamped lot through).
The retry branch tests `margin_required_min and margin_required_min >
margin_free`, so a falsy (zero) or None minimum-lot margin is accepted. -/
def calculate_lot_size (high_water_mark : ℚ) (sym : SymbolInfo)
    (sl_distance_points : ℚ) (margin_free : ℚ) (marginAt : ℚ → Option ℚ) : ℚ :=
  if sl_distance_points = 0 ∨ sym.trade_tick_value = 0 then 0
  else
    let lot_size := preMarginLot high_water_mark sym sl_distance_points
    match marginAt lot_size with
    | none => lot_size
    | some margin_required =>
      if margin_required > margin_free then
        match marginAt sym.volume_min with
        | none => sym.volume_min
        | some m2 => if m2 ≠ 0 ∧ m2 > margin_free then 0 else sym.volume_min
      else lot_size

/-- The per-leg volume of `TradeExecutor.execute_trade` step 6: quarter
the total, snap to the volume step, round to 2 decimals, then force up
to the minimum lot. -/
def split_lot (total_lot : ℚ) (sym : SymbolInfo) : ℚ :=
  let raw_split_lot := total_lot / 4
  let s :=
    if 0 < sym.volume_step then
      (pyRound (raw_split_lot / sym.volume_step) : ℚ) * sym.volume_step
    else raw_split_lot
  let s₂ := round2 s
  if s₂ < sym.volume_min then sym.volume_min else s₂

/-- `TradeExecutor.validate_candle_momentum`, given the resolved data
frame (the Python code picks `data_dict[timeframe]` with fallback 'M5';
absence of both keys also returns false and is part of the `df = none`
caller-side glue not modelled here). -/
def validate_candle_momentum (signal_type : String) (df : List Bar) : Bool :=
  if df.length < 3 then false
  else
    match df[df.length - 2]?, df[df.length - 3]? with
    | some candle_target, some candle_prev =>
      let O := candle_target.open_
      let H := candle_target.high
      let L := candle_target.low
      let C := candle_target.close
      let H_prev := candle_prev.high
      let L_prev := candle_prev.low
      let body_size := |C - O|
      let total_range := H - L
      if total_range = 0 then false
      else
        let min_body_strength := 3 / 10 * total_range
        if signal_type = BUY then
          if C > O then
            if C > H_prev then
              if body_size > min_body_strength then true else false
            else false
          else false
        else if signal_type = SELL then
          if C < O then
            if C < L_prev then
              if body_size > min_body_strength then true else false
            else false
          else false
        else false
    | _, _ => false

/-- Index and value of the first maximum of a list (pandas `idxmax`
keeps the earliest occurrence on ties). -/
def idxmax : List ℚ → Option (ℕ × ℚ)
  | [] => none
  | x :: xs =>
    match idxmax xs with
    | none => some (0, x)
    | some (i, m) => if m ≤ x then some (0, x) else some (i + 1, m)

/-- Index and value of the first minimum of a list (pandas `idxmin`). -/
def idxmin : List ℚ → Option (ℕ × ℚ)
  | [] => none
  | x :: xs =>
    match idxmin xs with
    | none => some (0, x)
    | some (i, m) => if x ≤ m then some (0, x) else some (i + 1, m)

/-- `SignalGenerator._find_swings`.  The window is the last
`min(period, len(df))` rows; Python's `df.iloc[-period:]` with
`period = 0` is the whole frame (since `-0 == 0`), reproduced here.
Returned indices are absolute positions in `df` (the frame's monotone
index). -/
def find_swings (df : List Bar) (period : ℕ) : Option (ℕ × ℚ × ℕ × ℚ) :=
  let p := if df.length < period then df.length else period
  let start := if p = 0 then 0 else df.length - p
  let subset := df.drop start
  match idxmax (subset.map Bar.high), idxmin (subset.map Bar.low) with
  | some (hi, hp), some (li, lp) => some (start + hi, hp, start + li, lp)
  | _, _ => none

/-- `SignalGenerator.check_signal`, given the 'M5' frame (a missing 'M5'
key returns 'NEUTRAL' in caller-side glue). -/
def check_signal (df : List Bar) : SignalResult :=
  if df.length < 50 then .str NEUTRAL
  else
    match find_swings df 100, df.getLast? with
    | some (h_idx, h_price, l_idx, l_price), some last =>
      let current_close := last.close
      if l_idx < h_idx then
        -- bullish impulse: max is more recent than min
        let range_size := h_price - l_price
        let fib_50 := h_price - 1 / 2 * range_size
        let fib_618 := h_price - 618 / 1000 * range_size
        if fib_618 ≤ current_close ∧ current_close ≤ fib_50 then
          let tp1 := h_price
          let tp2 := h_price + 272 / 1000 * range_size
          let atr₀ := last.atr.getD 0
          let atr := if atr₀ = 0 then range_size * (5 / 100) else atr₀
          let sl := l_price - 3 / 2 * atr
          .dict BUY [tp1, tp2, tp2] (some sl)
        else .str NEUTRAL
      else if h_idx < l_idx then
        -- bearish impulse: min is more recent than max
        let range_size := h_price - l_price
        let fib_50 := l_price + 1 / 2 * range_size
        let fib_618 := l_price + 618 / 1000 * range_size
        if fib_50 ≤ current_close ∧ current_close ≤ fib_618 then
          let tp1 := l_price
          let tp2 := l_price - 272 / 1000 * range_size
          .dict SELL [tp1, tp2, tp2] none
        else .str NEUTRAL
      else .str NEUTRAL
    | _, _ => .str NEUTRAL

/-- Step 1 of `TradeExecutor.execute_trade`: extract the action and the
target list from a str-or-dict signal. -/
def parseSignal : SignalResult → String × List ℚ
  | .str s => (s, [])
  | .dict action tps _ => (action, tps)

/-- The comments put on the four orders. -/
def order_comments : List String := [ "V7.4_TP1", "V7.4_TP2", "V7.4_TP3", "V7.4_TP4"]

/-- `TradeExecutor.execute_trade`, returning the four order requests it
sends (or simulates), or `none` on an abort path.  The momentum
validation verdict is computed and logged but its `return None` is
commented out in the source, so it does not gate anything. -/
def execute_trade (signal : SignalResult) (df_m5 : List Bar) (tick : Tick)
    (sym : SymbolInfo) (high_water_mark margin_free : ℚ)
    (marginAt : ℚ → Option ℚ) : Option (List OrderRequest) :=
  let (signal_type, _targets) := parseSignal signal
  if ¬(signal_type = BUY ∨ signal_type = SELL) then none
  else
    let _momentum_ok := validate_candle_momentum signal_type df_m5
    match df_m5.getLast? with
    | none => none
    | some last_m5 =>
      match last_m5.atr with
      | none => none
      | some atr =>
        let sl_distance_price := 2 * atr
        let sl_distance_points := sl_distance_price / sym.point
        let entry_price := if signal_type = BUY then tick.ask else tick.bid
        let sl_price :=
          if signal_type = BUY then entry_price - sl_distance_price
          else entry_price + sl_distance_price
        let total_lot := calculate_lot_size high_water_mark sym sl_distance_points
          margin_free marginAt
        if total_lot = 0 then none
        else
          let leg := split_lot total_lot sym
          let r_ratios : List ℚ := [1 / 2, 1, 3 / 2, 2]
          let final_tps := r_ratios.map (fun r =>
            if signal_type = BUY then entry_price + sl_distance_price * r
            else entry_price - sl_distance_price * r)
          some ((List.range 4).map (fun i =>
            { volume := leg
              price := entry_price
              sl := sl_price
              tp := final_tps.getD i 0
              comment := order_comments.getD i ""
              magic := 123456 + i }))

/-- Modelled from the spec: the sizing pipeline exactly as the claim
words it — risk cash is a tenth of the high-water mark, raw volume is
risk cash over stop distance times tick value, snapped to the volume
step by round-to-nearest-step, then clamped into
`[volume_min, volume_max]` (no intermediate rounding to 2 decimals). -/
def lot_size_claimed (high_water_mark : ℚ) (sym : SymbolInfo)
    (sl_distance_points : ℚ) : ℚ :=
  let risk_cash := high_water_mark / 10
  let raw := risk_cash / (sl_distance_points * sym.trade_tick_value)
  let snapped :=
    if 0 < sym.volume_step then (pyRound (raw / sym.volume_step) : ℚ) * sym.volume_step
    else raw
  min (max snapped sym.volume_min) sym.volume_max

/-- Whether a signal result carries a stop-loss value. -/
def has_sl : SignalResult → Bool
  | .dict _ _ (some _) => true
  | _ => false

/-! Concrete example data used by witnesses and counterexamples. -/

/-- A margin oracle for which `order_calc_margin` never answers. -/
def noMargin : ℚ → Option ℚ := fun _ => none

/-- A typical FX instrument: tick value 1, lot bounds 0.01 to 100, step 0.01. -/
def symA : SymbolInfo :=
  { trade_tick_value := 1, volume_min := 1 / 100, volume_max := 100
    volume_step := 1 / 100, point := 1 / 10000 }

/-- An instrument whose volume step 0.004 is not a multiple of 0.01. -/
def symB : SymbolInfo :=
  { trade_tick_value := 1, volume_min := 1 / 1000, volume_max := 100
    volume_step := 1 / 250, point := 1 / 10000 }

/-- An instrument whose minimum lot 1.0 dominates a small split. -/
def symC : SymbolInfo :=
  { trade_tick_value := 1, volume_min := 1, volume_max := 100
    volume_step := 1 / 100, point := 1 / 10000 }

def flatBar : Bar := { open_ := 7 / 5, high := 7 / 5, low := 7 / 5, close := 7 / 5 }

def lowBar : Bar := { open_ := 7 / 5, high := 7 / 5, low := 1, close := 7 / 5 }

def highBar : Bar := { open_ := 7 / 5, high := 2, low := 7 / 5, close := 7 / 5 }

def lastBar : Bar := { open_ := 7 / 5, high := 29 / 20, low := 7 / 5, close := 29 / 20 }

def lastBarBear : Bar := { open_ := 31 / 20, high := 31 / 20, low := 31 / 20, close := 31 / 20 }

/-- 50 bars: swing low 1 at position 10, swing high 2 at position 40,
last close 1.45 inside the bullish golden zone [1.382, 1.5]. -/
def dfBull : List Bar :=
  List.replicate 10 flatBar ++ [lowBar] ++ List.replicate 29 flatBar ++
    [highBar] ++ List.replicate 8 flatBar ++ [lastBar]

/-- 50 bars: swing high 2 at position 10, swing low 1 at position 40,
last close 1.55 inside the bearish golden zone [1.5, 1.618]. -/
def dfBear : List Bar :=
  List.replicate 10 flatBar ++ [highBar] ++ List.replicate 29 flatBar ++
    [lowBar] ++ List.replicate 8 flatBar ++ [lastBarBear]

/-- A strongly bullish closed candle: body 1 out of range 2, closing above
the previous bar's high 1.5. -/
def barTarget : Bar := { open_ := 1, high := 3, low := 1, close := 2 }

def barPrev : Bar := { open_ := 1, high := 3 / 2, low := 1, close := 1 }

def dfMom : List Bar := [ barPrev, barTarget, flatBar]

def tickA : Tick := { ask := 11 / 10, bid := 10999 / 10000 }

/-- A 3-bar frame whose last bar has ATR 0.0010 and zero range (so that
momentum validation fails while execution succeeds). -/
def barAtr : Bar := { open_ := 1, high := 1, low := 1, close := 1, atr := some (1 / 1000) }

def dfExec : List Bar := [ barPrev, barTarget, barAtr]

/-- Like `dfExec` but with a flat (zero-range) closed candle, so that
momentum validation rejects while execution still goes through. -/
def dfExecWeak : List Bar := [ barPrev, flatBar, barAtr]

/-! ## Helper lemmas -/

lemma pyRound_le (x : ℚ) : (pyRound x : ℚ) ≤ x + 1 / 2 := by
  unfold pyRound
  split_ifs with h h2
  · have := Int.floor_le x
    linarith
  · have hx : (⌊x⌋ : ℚ) = x - 1 / 2 := by linarith
    push_cast
    linarith
  · rw [round_eq]
    have := Int.floor_le (x + 1 / 2)
    linarith

lemma round2_le (x : ℚ) : round2 x ≤ x + 1 / 200 := by
  unfold round2
  have h := pyRound_le (100 * x)
  linarith

lemma clamp_eq (x lo hi : ℚ) :
    (if hi < (if x < lo then lo else x) then hi else (if x < lo then lo else x)) =
      min (max x lo) hi := by
  simp only [min_def, max_def]
  split_ifs <;> linarith

/-! ## Claim theorems -/

/-- C3: each sizing call stores `max(previous mark, current balance)` as the
new high-water mark, the memory file is written exactly when the mark
strictly increases, and over any sequence of balance observations the
stored mark never decreases. -/
theorem hwm_monotone_spec :
    (∀ prev b : ℚ, (update_high_water_mark prev b).1 = max prev b ∧
      ((update_high_water_mark prev b).2 = true ↔
        prev < (update_high_water_mark prev b).1)) ∧
    (∀ (init : ℚ) (bs : List ℚ), init ≤ hwmRun init bs) := by
  have hfst : ∀ prev b : ℚ, (update_high_water_mark prev b).1 = max prev b := by
    intro prev b
    unfold update_high_water_mark
    rcases lt_or_le prev b with h | h
    · simp [gt_iff_lt, h, max_eq_right h.le]
    · simp [gt_iff_lt, not_lt.mpr h, max_eq_left h]
  constructor
  · intro prev b
    refine ⟨hfst prev b, ?_⟩
    rw [hfst prev b]
    unfold update_high_water_mark
    rcases lt_or_le prev b with h | h
    · simp [gt_iff_lt, h, max_eq_right h.le]
    · simp [gt_iff_lt, not_lt.mpr h, max_eq_left h]
  · intro init bs
    induction bs generalizing init with
    | nil => simp [hwmRun]
    | cons b bs ih =>
      have h1 : init ≤ (update_high_water_mark init b).1 := by
        rw [hfst]
        exact le_max_left _ _
      calc init ≤ (update_high_water_mark init b).1 := h1
        _ ≤ hwmRun (update_high_water_mark init b).1 bs := ih _
        _ = hwmRun init (b :: bs) := rfl

/-- C2 counterexample: at high-water mark 0.07, stop distance 1, tick value 1
on an instrument with volume step 0.004, the code's lot (which rounds the
snapped volume to 2 decimals before clamping) differs from the claimed
snap-then-clamp pipeline. -/
theorem calculate_lot_size_ne_claimed :
    calculate_lot_size (7 / 100) symB 1 1000 noMargin ≠
      lot_size_claimed (7 / 100) symB 1 := by
  norm_num [calculate_lot_size, lot_size_claimed, preMarginLot, pyRound, round2,
    symB, noMargin, round_eq]

/-- C2 (amended): the sizer computes risk cash as a tenth of the high-water
mark, divides by stop distance times tick value, snaps to the volume step by
round-to-nearest-step, rounds the snapped volume to 2 decimal places, and
clamps into `[volume_min, volume_max]`; for mark 10000, stop distance 50 and
tick value 1 the pre-clamp volume is exactly 20. -/
theorem preMarginLot_pipeline :
    (∀ (hwm : ℚ) (sym : SymbolInfo) (d : ℚ),
      preMarginLot hwm sym d =
        min (max (round2 (if 0 < sym.volume_step then
              (pyRound (hwm / 10 / (d * sym.trade_tick_value) / sym.volume_step) : ℚ) *
                sym.volume_step
            else hwm / 10 / (d * sym.trade_tick_value))) sym.volume_min)
          sym.volume_max) ∧
    (10000 : ℚ) / 10 = 1000 ∧ (1000 : ℚ) / (50 * 1) = 20 ∧
      preMarginLot 10000 symA 50 = 20 := by
  refine ⟨?_, by norm_num, by norm_num,
    by norm_num [preMarginLot, pyRound, round2, symA, round_eq]⟩
  intro hwm sym d
  unfold preMarginLot
  exact clamp_eq _ _ _

/-- C9 counterexample: on a concrete bullish golden-zone frame the engine's
returned signal does carry a stop-loss value (key 'sl_custom'). -/
theorem check_signal_buy_has_sl : has_sl (check_signal dfBull) = true := by
  norm_num [has_sl, check_signal, find_swings, idxmax, idxmin, dfBull, flatBar,
    lowBar, highBar, lastBar, List.replicate, NEUTRAL, BUY, SELL]

/-- C9 (amended): a SELL signal carries no stop-loss value and a BUY signal
carries the auxiliary 'sl_custom' value, but the executed plan is
independent of any stop-loss carried by the signal: `execute_trade` reads
only the action (its stop-loss comes from the ATR downstream). -/
theorem check_signal_sl_custom_spec :
    (∀ (df : List Bar) (a : String) (tps : List ℚ) (sl : Option ℚ),
      check_signal df = .dict a tps sl →
        (a = SELL → sl = none) ∧ (a = BUY → sl ≠ none)) ∧
    (∀ (a : String) (tps : List ℚ) (sl sl' : Option ℚ) (df : List Bar) (tick : Tick)
      (sym : SymbolInfo) (hwm free : ℚ) (mA : ℚ → Option ℚ),
      execute_trade (.dict a tps sl) df tick sym hwm free mA =
        execute_trade (.dict a tps sl') df tick sym hwm free mA) := by
  constructor
  · intro df a tps sl h
    unfold check_signal at h
    split at h
    · cases h
    · split at h
      · split at h
        · dsimp only at h
          split at h
          · injection h with h1 h2 h3
            subst h1
            subst h3
            refine ⟨fun hc => absurd hc (by decide), fun _ => by simp⟩
          · cases h
        · split at h
          · dsimp only at h
            split at h
            · injection h with h1 h2 h3
              subst h1
              subst h3
              refine ⟨fun _ => rfl, fun hc => absurd hc (by decide)⟩
            · cases h
          · cases h
      · cases h
  · intro a tps sl sl' df tick sym hwm free mA
    rfl

lemma volume_min_le_preMarginLot (hwm d : ℚ) (sym : SymbolInfo)
    (hmm : sym.volume_min ≤ sym.volume_max) :
    sym.volume_min ≤ preMarginLot hwm sym d := by
  unfold preMarginLot
  dsimp only
  split_ifs <;> linarith

lemma calculate_lot_size_eq (hwm d free : ℚ) (sym : SymbolInfo)
    (marginAt : ℚ → Option ℚ) (hz : ¬(d = 0 ∨ sym.trade_tick_value = 0)) :
    calculate_lot_size hwm sym d free marginAt =
      match marginAt (preMarginLot hwm sym d) with
      | none => preMarginLot hwm sym d
      | some m =>
        if m > free then
          match marginAt sym.volume_min with
          | none => sym.volume_min
          | some m2 => if m2 ≠ 0 ∧ m2 > free then 0 else sym.volume_min
        else preMarginLot hwm sym d := by
  unfold calculate_lot_size
  rw [if_neg hz]

/-- C6: with positive, ordered volume bounds, the sizer returns zero exactly
when the stop distance or tick value is zero, or when the margin required at
the clamped volume and then at the minimum volume both exceed free margin;
an unavailable margin estimate lets the clamped volume through, and a failed
first margin check retries once at the minimum volume. -/
theorem calculate_lot_size_zero_iff (hwm d free : ℚ) (sym : SymbolInfo)
    (marginAt : ℚ → Option ℚ) (hmin : 0 < sym.volume_min)
    (hmm : sym.volume_min ≤ sym.volume_max) :
    (calculate_lot_size hwm sym d free marginAt = 0 ↔
      d = 0 ∨ sym.trade_tick_value = 0 ∨
        ∃ m m2, marginAt (preMarginLot hwm sym d) = some m ∧ m > free ∧
          marginAt sym.volume_min = some m2 ∧ m2 ≠ 0 ∧ m2 > free) ∧
    (d ≠ 0 → sym.trade_tick_value ≠ 0 →
      marginAt (preMarginLot hwm sym d) = none →
      calculate_lot_size hwm sym d free marginAt = preMarginLot hwm sym d) ∧
    (∀ m, d ≠ 0 → sym.trade_tick_value ≠ 0 →
      marginAt (preMarginLot hwm sym d) = some m → m > free →
      calculate_lot_size hwm sym d free marginAt = 0 ∨
        calculate_lot_size hwm sym d free marginAt = sym.volume_min) := by
  have hple : sym.volume_min ≤ preMarginLot hwm sym d :=
    volume_min_le_preMarginLot hwm d sym hmm
  have hpm : preMarginLot hwm sym d ≠ 0 := (lt_of_lt_of_le hmin hple).ne'
  refine ⟨⟨?_, ?_⟩, ?_, ?_⟩
  · intro h0
    by_cases hz : d = 0 ∨ sym.trade_tick_value = 0
    · rcases hz with hz | hz
      · exact Or.inl hz
      · exact Or.inr (Or.inl hz)
    · right; right
      rw [calculate_lot_size_eq hwm d free sym marginAt hz] at h0
      cases hm : marginAt (preMarginLot hwm sym d) with
      | none => simp only [hm] at h0; exact absurd h0 hpm
      | some m =>
        simp only [hm] at h0
        by_cases hmf : m > free
        · rw [if_pos hmf] at h0
          cases hm2 : marginAt sym.volume_min with
          | none => simp only [hm2] at h0; exact absurd h0 hmin.ne'
          | some m2 =>
            simp only [hm2] at h0
            by_cases hc : m2 ≠ 0 ∧ m2 > free
            · exact ⟨m, m2, rfl, hmf, rfl, hc.1, hc.2⟩
            · rw [if_neg hc] at h0; exact absurd h0 hmin.ne'
        · rw [if_neg hmf] at h0; exact absurd h0 hpm
  · intro h
    rcases h with h | h | ⟨m, m2, hm, hmf, hm2, hne, hgt⟩
    · unfold calculate_lot_size
      rw [if_pos (Or.inl h)]
    · unfold calculate_lot_size
      rw [if_pos (Or.inr h)]
    · by_cases hz : d = 0 ∨ sym.trade_tick_value = 0
      · unfold calculate_lot_size
        rw [if_pos hz]
      · rw [calculate_lot_size_eq hwm d free sym marginAt hz]
        simp only [hm]
        rw [if_pos hmf]
        simp only [hm2]
        rw [if_pos (And.intro hne hgt)]
  · intro hd ht hm
    rw [calculate_lot_size_eq hwm d free sym marginAt (not_or.mpr ⟨hd, ht⟩)]
    simp only [hm]
  · intro m hd ht hm hmf
    rw [calculate_lot_size_eq hwm d free sym marginAt (not_or.mpr ⟨hd, ht⟩)]
    simp only [hm, if_pos hmf]
    cases hm2 : marginAt sym.volume_min with
    | none => right; rfl
    | some m2 =>
      dsimp only
      by_cases hc : m2 ≠ 0 ∧ m2 > free
      · rw [if_pos hc]; left; rfl
      · rw [if_neg hc]; right; rfl

/-- C6 witness: a concrete run of each error path: zero stop distance gives
zero volume, and a doubly failing margin check gives zero volume. -/
theorem calculate_lot_size_zero_iff_witness :
    calculate_lot_size 10000 symA 0 1000 noMargin = 0 ∧
      calculate_lot_size 10000 symA 50 1 (fun _ => some 500) = 0 := by
  constructor
  · exact (calculate_lot_size_zero_iff 10000 0 1000 symA noMargin (by norm_num [symA])
      (by norm_num [symA])).1.mpr (Or.inl rfl)
  · exact (calculate_lot_size_zero_iff 10000 50 1 symA (fun _ => some 500)
      (by norm_num [symA]) (by norm_num [symA])).1.mpr
      (Or.inr (Or.inr ⟨500, 500, rfl, by norm_num, rfl, by norm_num, by norm_num⟩))

/-- C4: momentum validation returns true for BUY exactly when there are at
least 3 bars and the last closed candle (second-to-last row) has nonzero
range, closes above its open, closes above the previous bar's high, and has
body strictly exceeding 30% of its range; symmetrically for SELL; fewer
than 3 bars always fails. -/
theorem validate_candle_momentum_spec :
    (∀ (df : List Bar) (s : String), df.length < 3 →
      validate_candle_momentum s df = false) ∧
    (∀ (df : List Bar) (ct cp : Bar), 3 ≤ df.length →
      df[df.length - 2]? = some ct → df[df.length - 3]? = some cp →
      ((validate_candle_momentum BUY df = true ↔
          ct.high ≠ ct.low ∧ ct.open_ < ct.close ∧ cp.high < ct.close ∧
            3 / 10 * (ct.high - ct.low) < |ct.close - ct.open_|) ∧
        (validate_candle_momentum SELL df = true ↔
          ct.high ≠ ct.low ∧ ct.close < ct.open_ ∧ ct.close < cp.low ∧
            3 / 10 * (ct.high - ct.low) < |ct.close - ct.open_|))) := by
  constructor
  · intro df s h
    unfold validate_candle_momentum
    rw [if_pos h]
  · intro df ct cp hlen hct hcp
    have hnl : ¬df.length < 3 := not_lt.mpr hlen
    constructor
    · unfold validate_candle_momentum
      rw [if_neg hnl]
      simp only [hct, hcp, eq_self_iff_true, if_true]
      constructor
      · intro h
        split_ifs at h with h1 h2 h3 h4
        exact ⟨sub_ne_zero.mp h1, h2, h3, h4⟩
      · rintro ⟨hA, hB, hC, hD⟩
        rw [if_neg (sub_ne_zero.mpr hA), if_pos hB, if_pos hC, if_pos hD]
    · unfold validate_candle_momentum
      rw [if_neg hnl]
      simp only [hct, hcp, eq_self_iff_true, if_true,
        eq_false (show ¬(SELL = BUY) by decide), if_false]
      constructor
      · intro h
        split_ifs at h with h1 h2 h3 h4
        exact ⟨sub_ne_zero.mp h1, h2, h3, h4⟩
      · rintro ⟨hA, hB, hC, hD⟩
        rw [if_neg (sub_ne_zero.mpr hA), if_pos hB, if_pos hC, if_pos hD]

/-- C4 witness: the concrete strong bullish candle validates for BUY and the
3-bar minimum binds on a 2-bar frame. -/
theorem validate_candle_momentum_spec_witness :
    validate_candle_momentum BUY dfMom = true ∧
      validate_candle_momentum BUY [ flatBar, flatBar] = false := by
  constructor
  · exact (validate_candle_momentum_spec.2 dfMom barTarget barPrev (by norm_num [dfMom])
      (by simp [dfMom]) (by simp [dfMom])).1.mpr
      (by norm_num [barTarget, barPrev, abs_of_nonneg])
  · exact validate_candle_momentum_spec.1 [ flatBar, flatBar] BUY (by norm_num)

/-- C5 counterexample: with sized volume 1.0 on an instrument with minimum
lot 1.0 and step 0.01, each of the 4 legs is forced up to the minimum, so
the legs sum to 4.0, exceeding the sized volume by far more than one step
per leg. -/
theorem split_lot_sum_exceeds :
    ¬(4 * split_lot 1 symC ≤ 1 + 4 * symC.volume_step) := by
  norm_num [split_lot, round2, pyRound, symC, round_eq]

/-- C5 (amended): provided the volume step is at least 0.01 (so the final
2-decimal rounding is absorbed by the step) and the snapped-and-rounded
quarter volume is not below the minimum lot (no minimum-lot fallback), the
4 legs sum to at most the sized volume plus one volume step per leg. -/
theorem split_lot_sum_bound (total : ℚ) (sym : SymbolInfo)
    (hstep : 1 / 100 ≤ sym.volume_step)
    (hnoclamp : sym.volume_min ≤
      round2 ((pyRound (total / 4 / sym.volume_step) : ℚ) * sym.volume_step)) :
    4 * split_lot total sym ≤ total + 4 * sym.volume_step := by
  have hpos : (0 : ℚ) < sym.volume_step := lt_of_lt_of_le (by norm_num) hstep
  have heq : split_lot total sym =
      round2 ((pyRound (total / 4 / sym.volume_step) : ℚ) * sym.volume_step) := by
    unfold split_lot
    dsimp only
    rw [if_pos hpos, if_neg (not_lt.mpr hnoclamp)]
  have h1 : (pyRound (total / 4 / sym.volume_step) : ℚ) ≤
      total / 4 / sym.volume_step + 1 / 2 := pyRound_le _
  have h2 : (pyRound (total / 4 / sym.volume_step) : ℚ) * sym.volume_step ≤
      total / 4 + sym.volume_step / 2 := by
    calc (pyRound (total / 4 / sym.volume_step) : ℚ) * sym.volume_step ≤
        (total / 4 / sym.volume_step + 1 / 2) * sym.volume_step :=
          mul_le_mul_of_nonneg_right h1 hpos.le
      _ = total / 4 + sym.volume_step / 2 := by
          field_simp
          ring
  have h3 := round2_le ((pyRound (total / 4 / sym.volume_step) : ℚ) * sym.volume_step)
  rw [heq]
  linarith

/-- C5 witness: on the typical instrument with step 0.01 and a sized volume
of 1.0 the bound applies and holds. -/
theorem split_lot_sum_bound_witness : 4 * split_lot 1 symA ≤ 1 + 4 * symA.volume_step :=
  split_lot_sum_bound 1 symA (by norm_num [symA])
    (by norm_num [symA, round2, pyRound, round_eq])

lemma execute_trade_run_buy (signal : SignalResult) (df : List Bar) (tick : Tick)
    (sym : SymbolInfo) (hwm free : ℚ) (marginAt : ℚ → Option ℚ) (last : Bar) (atr : ℚ)
    (hsig : (parseSignal signal).1 = BUY)
    (hlast : df.getLast? = some last) (hatr : last.atr = some atr)
    (h0 : calculate_lot_size hwm sym (2 * atr / sym.point) free marginAt ≠ 0) :
    execute_trade signal df tick sym hwm free marginAt =
      some ((List.range 4).map (fun i =>
        { volume := split_lot (calculate_lot_size hwm sym (2 * atr / sym.point) free marginAt) sym
          price := tick.ask
          sl := tick.ask - 2 * atr
          tp := ([ tick.ask + 2 * atr * (1 / 2), tick.ask + 2 * atr * 1,
                   tick.ask + 2 * atr * (3 / 2), tick.ask + 2 * atr * 2] : List ℚ).getD i 0
          comment := order_comments.getD i ""
          magic := 123456 + i })) := by
  rcases hps : parseSignal signal with ⟨s, ts⟩
  rw [hps] at hsig
  dsimp only at hsig
  subst hsig
  unfold execute_trade
  simp only [hps]
  simp [hlast, hatr, h0, List.range_succ]

lemma execute_trade_run_sell (signal : SignalResult) (df : List Bar) (tick : Tick)
    (sym : SymbolInfo) (hwm free : ℚ) (marginAt : ℚ → Option ℚ) (last : Bar) (atr : ℚ)
    (hsig : (parseSignal signal).1 = SELL)
    (hlast : df.getLast? = some last) (hatr : last.atr = some atr)
    (h0 : calculate_lot_size hwm sym (2 * atr / sym.point) free marginAt ≠ 0) :
    execute_trade signal df tick sym hwm free marginAt =
      some ((List.range 4).map (fun i =>
        { volume := split_lot (calculate_lot_size hwm sym (2 * atr / sym.point) free marginAt) sym
          price := tick.bid
          sl := tick.bid + 2 * atr
          tp := ([ tick.bid - 2 * atr * (1 / 2), tick.bid - 2 * atr * 1,
                   tick.bid - 2 * atr * (3 / 2), tick.bid - 2 * atr * 2] : List ℚ).getD i 0
          comment := order_comments.getD i ""
          magic := 123456 + i })) := by
  rcases hps : parseSignal signal with ⟨s, ts⟩
  rw [hps] at hsig
  dsimp only at hsig
  subst hsig
  unfold execute_trade
  simp only [hps]
  simp [hlast, hatr, h0, eq_false (show ¬(SELL = BUY) by decide), List.range_succ]

lemma execute_trade_zero_of_lot_zero (signal : SignalResult) (df : List Bar)
    (tick : Tick) (sym : SymbolInfo) (hwm free : ℚ) (marginAt : ℚ → Option ℚ)
    (last : Bar) (atr : ℚ)
    (hsig : (parseSignal signal).1 = BUY ∨ (parseSignal signal).1 = SELL)
    (hlast : df.getLast? = some last) (hatr : last.atr = some atr)
    (h0 : calculate_lot_size hwm sym (2 * atr / sym.point) free marginAt = 0) :
    execute_trade signal df tick sym hwm free marginAt = none := by
  rcases hps : parseSignal signal with ⟨s, ts⟩
  rcases hsig with hs | hs
  · rw [hps] at hs
    dsimp only at hs
    subst hs
    unfold execute_trade
    simp only [hps]
    simp [hlast, hatr, h0]
  · rw [hps] at hs
    dsimp only at hs
    subst hs
    unfold execute_trade
    simp only [hps]
    simp [hlast, hatr, h0, eq_false (show ¬(SELL = BUY) by decide)]

/-- C7: whenever `execute_trade` sends a plan, the shared stop distance is
2·ATR, the entry is the ask for BUY and the bid for SELL, the stop-loss
sits that distance below/above the entry, and the four take-profits sit at
risk multiples 0.5, 1, 1.5 and 2 of the stop distance from the entry. -/
theorem execute_trade_prices (signal : SignalResult) (df : List Bar) (tick : Tick)
    (sym : SymbolInfo) (hwm free : ℚ) (marginAt : ℚ → Option ℚ) (last : Bar)
    (atr : ℚ) (hlast : df.getLast? = some last) (hatr : last.atr = some atr) :
    ((parseSignal signal).1 = BUY → ∀ orders,
      execute_trade signal df tick sym hwm free marginAt = some orders →
      orders.map OrderRequest.price = List.replicate 4 tick.ask ∧
      orders.map OrderRequest.sl = List.replicate 4 (tick.ask - 2 * atr) ∧
      orders.map OrderRequest.tp =
        [ tick.ask + 2 * atr * (1 / 2), tick.ask + 2 * atr * 1,
          tick.ask + 2 * atr * (3 / 2), tick.ask + 2 * atr * 2]) ∧
    ((parseSignal signal).1 = SELL → ∀ orders,
      execute_trade signal df tick sym hwm free marginAt = some orders →
      orders.map OrderRequest.price = List.replicate 4 tick.bid ∧
      orders.map OrderRequest.sl = List.replicate 4 (tick.bid + 2 * atr) ∧
      orders.map OrderRequest.tp =
        [ tick.bid - 2 * atr * (1 / 2), tick.bid - 2 * atr * 1,
          tick.bid - 2 * atr * (3 / 2), tick.bid - 2 * atr * 2]) := by
  constructor
  · intro hsig orders hrun
    by_cases h0 : calculate_lot_size hwm sym (2 * atr / sym.point) free marginAt = 0
    · rw [execute_trade_zero_of_lot_zero signal df tick sym hwm free marginAt last atr
        (Or.inl hsig) hlast hatr h0] at hrun
      cases hrun
    · rw [execute_trade_run_buy signal df tick sym hwm free marginAt last atr
        hsig hlast hatr h0] at hrun
      injection hrun with h
      subst h
      refine ⟨?_, ?_, ?_⟩ <;> simp [List.range_succ]
  · intro hsig orders hrun
    by_cases h0 : calculate_lot_size hwm sym (2 * atr / sym.point) free marginAt = 0
    · rw [execute_trade_zero_of_lot_zero signal df tick sym hwm free marginAt last atr
        (Or.inr hsig) hlast hatr h0] at hrun
      cases hrun
    · rw [execute_trade_run_sell signal df tick sym hwm free marginAt last atr
        hsig hlast hatr h0] at hrun
      injection hrun with h
      subst h
      refine ⟨?_, ?_, ?_⟩ <;> simp [List.range_succ]


/-- C7 witness: a concrete BUY with ATR 0.0010 and ask 1.1000 yields
stop-loss 1.0980 and take-profits 1.1010, 1.1020, 1.1030, 1.1040. -/
theorem execute_trade_prices_witness :
    (execute_trade (.str BUY) dfExec tickA symA 10000 100000 noMargin).map
        (List.map OrderRequest.sl) = some (List.replicate 4 (1098 / 1000)) ∧
    (execute_trade (.str BUY) dfExec tickA symA 10000 100000 noMargin).map
        (List.map OrderRequest.tp) =
      some [ 1101 / 1000, 1102 / 1000, 1103 / 1000, 1104 / 1000] := by
  have hlast : dfExec.getLast? = some barAtr := by simp [dfExec]
  have hatr : barAtr.atr = some (1 / 1000) := rfl
  have h0 : calculate_lot_size 10000 symA (2 * (1 / 1000) / symA.point) 100000 noMargin ≠ 0 := by
    norm_num [calculate_lot_size, preMarginLot, pyRound, round2, symA, noMargin, round_eq]
  have hrun := execute_trade_run_buy (.str BUY) dfExec tickA symA 10000 100000 noMargin
    barAtr (1 / 1000) rfl hlast hatr h0
  have h := (execute_trade_prices (.str BUY) dfExec tickA symA 10000 100000 noMargin
    barAtr (1 / 1000) hlast hatr).1 rfl _ hrun
  constructor
  · rw [hrun, Option.map_some', h.2.1]
    norm_num [tickA]
  · rw [hrun, Option.map_some', h.2.2]
    norm_num [tickA]

/-- C10: a false momentum verdict never prevents execution: whenever the
run's other preconditions hold (a BUY/SELL action, a last bar carrying an
ATR, nonzero sized volume), `execute_trade` returns a 4-leg plan even
though `validate_candle_momentum` returned false. -/
theorem execute_trade_ignores_momentum (signal : SignalResult) (df : List Bar)
    (tick : Tick) (sym : SymbolInfo) (hwm free : ℚ) (marginAt : ℚ → Option ℚ)
    (last : Bar) (atr : ℚ)
    (hmom : validate_candle_momentum (parseSignal signal).1 df = false)
    (hsig : (parseSignal signal).1 = BUY ∨ (parseSignal signal).1 = SELL)
    (hlast : df.getLast? = some last) (hatr : last.atr = some atr)
    (h0 : calculate_lot_size hwm sym (2 * atr / sym.point) free marginAt ≠ 0) :
    ∃ orders, execute_trade signal df tick sym hwm free marginAt = some orders ∧
      orders.length = 4 := by
  rcases hsig with hs | hs
  · exact ⟨_, execute_trade_run_buy signal df tick sym hwm free marginAt last atr
      hs hlast hatr h0, by simp⟩
  · exact ⟨_, execute_trade_run_sell signal df tick sym hwm free marginAt last atr
      hs hlast hatr h0, by simp⟩

/-- C10 witness: a concrete frame whose closed candle has zero range fails
momentum validation, yet the same inputs produce a 4-leg plan. -/
theorem execute_trade_ignores_momentum_witness :
    validate_candle_momentum BUY dfExecWeak = false ∧
      ∃ orders, execute_trade (.str BUY) dfExecWeak tickA symA 10000 100000 noMargin =
        some orders ∧ orders.length = 4 := by
  constructor
  · norm_num [validate_candle_momentum, dfExecWeak, barPrev, flatBar, barAtr, BUY, SELL]
  · exact execute_trade_ignores_momentum (.str BUY) dfExecWeak tickA symA 10000 100000
      noMargin barAtr (1 / 1000)
      (by norm_num [validate_candle_momentum, parseSignal, dfExecWeak, barPrev,
        flatBar, barAtr, BUY, SELL])
      (Or.inl rfl) (by simp [dfExecWeak]) rfl
      (by norm_num [calculate_lot_size, preMarginLot, pyRound, round2, symA,
        noMargin, round_eq])

lemma idxmax_spec : ∀ (l : List ℚ), l ≠ [] →
    ∃ i m, idxmax l = some (i, m) ∧ l[i]? = some m ∧ (∀ x ∈ l, x ≤ m) ∧
      (∀ j y, j < i → l[j]? = some y → y < m) := by
  intro l
  induction l with
  | nil => intro h; exact absurd rfl h
  | cons x xs ih =>
    intro _
    by_cases hxs : xs = []
    · subst hxs
      refine ⟨0, x, by simp [idxmax], by simp, ?_, ?_⟩
      · intro y hy
        have hxy : y = x := by simpa using hy
        exact hxy.le
      · intro j y hj hy
        omega
    · obtain ⟨i, m, h1, h2, h3, h4⟩ := ih hxs
      by_cases hmx : m ≤ x
      · refine ⟨0, x, by simp [idxmax, h1, hmx], by simp, ?_, ?_⟩
        · intro y hy
          rcases List.mem_cons.mp hy with hxy | hy
          · exact hxy.le
          · exact le_trans (h3 y hy) hmx
        · intro j y hj hy
          omega
      · refine ⟨i + 1, m, by simp [idxmax, h1, hmx], by simpa using h2, ?_, ?_⟩
        · intro y hy
          rcases List.mem_cons.mp hy with hxy | hy
          · exact hxy ▸ (not_le.mp hmx).le
          · exact h3 y hy
        · intro j y hj hy
          cases j with
          | zero =>
            have hxy : x = y := by simpa using hy
            exact hxy ▸ not_le.mp hmx
          | succ k =>
            exact h4 k y (by omega) (by simpa using hy)

lemma idxmin_spec : ∀ (l : List ℚ), l ≠ [] →
    ∃ i m, idxmin l = some (i, m) ∧ l[i]? = some m ∧ (∀ x ∈ l, m ≤ x) ∧
      (∀ j y, j < i → l[j]? = some y → m < y) := by
  intro l
  induction l with
  | nil => intro h; exact absurd rfl h
  | cons x xs ih =>
    intro _
    by_cases hxs : xs = []
    · subst hxs
      refine ⟨0, x, by simp [idxmin], by simp, ?_, ?_⟩
      · intro y hy
        have hxy : y = x := by simpa using hy
        exact hxy.ge
      · intro j y hj hy
        omega
    · obtain ⟨i, m, h1, h2, h3, h4⟩ := ih hxs
      by_cases hmx : x ≤ m
      · refine ⟨0, x, by simp [idxmin, h1, hmx], by simp, ?_, ?_⟩
        · intro y hy
          rcases List.mem_cons.mp hy with hxy | hy
          · exact hxy.ge
          · exact le_trans hmx (h3 y hy)
        · intro j y hj hy
          omega
      · refine ⟨i + 1, m, by simp [idxmin, h1, hmx], by simpa using h2, ?_, ?_⟩
        · intro y hy
          rcases List.mem_cons.mp hy with hxy | hy
          · exact hxy ▸ (not_le.mp hmx).le
          · exact h3 y hy
        · intro j y hj hy
          cases j with
          | zero =>
            have hxy : x = y := by simpa using hy
            exact hxy ▸ not_le.mp hmx
          | succ k =>
            exact h4 k y (by omega) (by simpa using hy)

/-- C8: on a non-empty frame (and a positive lookback, as the engine always
uses 100), `find_swings` returns the maximum high and minimum low over the
most recent `min(lookback, length)` bars, each at the earliest position
attaining it (every strictly earlier bar in the window is strictly
smaller/larger), and a frame shorter than the lookback uses exactly the
whole frame. -/
theorem find_swings_spec (df : List Bar) (period : ℕ) (hne : df ≠ [])
    (hp : 0 < period) :
    ∃ ih im il lm,
      find_swings df period =
        some (df.length - min period df.length + ih, im,
          df.length - min period df.length + il, lm) ∧
      (df.length ≤ period → df.drop (df.length - min period df.length) = df) ∧
      ((df.drop (df.length - min period df.length)).map Bar.high)[ih]? = some im ∧
      (∀ x ∈ (df.drop (df.length - min period df.length)).map Bar.high, x ≤ im) ∧
      (∀ j y, j < ih →
        ((df.drop (df.length - min period df.length)).map Bar.high)[j]? = some y →
        y < im) ∧
      ((df.drop (df.length - min period df.length)).map Bar.low)[il]? = some lm ∧
      (∀ x ∈ (df.drop (df.length - min period df.length)).map Bar.low, lm ≤ x) ∧
      (∀ j y, j < il →
        ((df.drop (df.length - min period df.length)).map Bar.low)[j]? = some y →
        lm < y) := by
  have hlen : 0 < df.length := List.length_pos.mpr hne
  have hpmin : 0 < min period df.length := lt_min hp hlen
  have hpeq : (if df.length < period then df.length else period) =
      min period df.length := by
    rcases lt_or_le df.length period with h | h
    · rw [if_pos h, min_eq_right h.le]
    · rw [if_neg (not_lt.mpr h), min_eq_left h]
  have hwne : df.drop (df.length - min period df.length) ≠ [] := by
    rw [ne_eq, List.drop_eq_nil_iff, not_le]
    omega
  obtain ⟨ih, im, hmax1, hmax2, hmax3, hmax4⟩ :=
    idxmax_spec ((df.drop (df.length - min period df.length)).map Bar.high)
      (by simpa using hwne)
  obtain ⟨il, lm, hmin1, hmin2, hmin3, hmin4⟩ :=
    idxmin_spec ((df.drop (df.length - min period df.length)).map Bar.low)
      (by simpa using hwne)
  refine ⟨ih, im, il, lm, ?_, ?_, hmax2, hmax3, hmax4, hmin2, hmin3, hmin4⟩
  · unfold find_swings
    rw [hpeq]
    dsimp only
    rw [if_neg hpmin.ne']
    simp only [hmax1, hmin1]
  · intro h
    have h0 : df.length - min period df.length = 0 := by omega
    rw [h0]
    exact List.drop_zero df

/-- C8 witness: on the concrete 50-bar bullish frame the swings are found
(at absolute positions 40 and 10 with prices 2 and 1). -/
theorem find_swings_spec_witness :
    (∃ ih im il lm,
      find_swings dfBull 100 =
        some (dfBull.length - min 100 dfBull.length + ih, im,
          dfBull.length - min 100 dfBull.length + il, lm)) ∧
    find_swings dfBull 100 = some (40, 2, 10, 1) := by
  constructor
  · obtain ⟨ih, im, il, lm, h, -, -, -, -, -, -, -⟩ :=
      find_swings_spec dfBull 100 (by simp [dfBull]) (by norm_num)
    exact ⟨ih, im, il, lm, h⟩
  · norm_num [find_swings, idxmax, idxmin, dfBull, flatBar, lowBar, highBar,
      lastBar, List.replicate]


/-- C1: with at least 50 bars and a determinate impulse, the engine signals
exactly when the last close lies inclusively inside the golden zone
(bullish: [high − 0.618·range, high − 0.5·range]; bearish:
[low + 0.5·range, low + 0.618·range]), with matching direction and
take-profit anchors [high, high + 0.272·range, high + 0.272·range] for
bullish and [low, low − 0.272·range, low − 0.272·range] for bearish;
fewer than 50 bars always yields 'NEUTRAL'. -/
theorem check_signal_golden_zone :
    (∀ df : List Bar, df.length < 50 → check_signal df = .str NEUTRAL) ∧
    (∀ (df : List Bar) (h_idx l_idx : ℕ) (h_price l_price : ℚ) (last : Bar),
      50 ≤ df.length →
      find_swings df 100 = some (h_idx, h_price, l_idx, l_price) →
      df.getLast? = some last →
      ((l_idx < h_idx →
        ((h_price - 618 / 1000 * (h_price - l_price) ≤ last.close ∧
          last.close ≤ h_price - 1 / 2 * (h_price - l_price)) →
          ∃ sl, check_signal df =
            .dict BUY
              [ h_price, h_price + 272 / 1000 * (h_price - l_price),
                h_price + 272 / 1000 * (h_price - l_price)] (some sl)) ∧
        (¬(h_price - 618 / 1000 * (h_price - l_price) ≤ last.close ∧
            last.close ≤ h_price - 1 / 2 * (h_price - l_price)) →
          check_signal df = .str NEUTRAL)) ∧
      (h_idx < l_idx →
        ((l_price + 1 / 2 * (h_price - l_price) ≤ last.close ∧
          last.close ≤ l_price + 618 / 1000 * (h_price - l_price)) →
          check_signal df =
            .dict SELL
              [ l_price, l_price - 272 / 1000 * (h_price - l_price),
                l_price - 272 / 1000 * (h_price - l_price)] none) ∧
        (¬(l_price + 1 / 2 * (h_price - l_price) ≤ last.close ∧
            last.close ≤ l_price + 618 / 1000 * (h_price - l_price)) →
          check_signal df = .str NEUTRAL)))) := by
  constructor
  · intro df h
    unfold check_signal
    rw [if_pos h]
  · intro df h_idx l_idx h_price l_price last hlen hfs hlast
    constructor
    · intro hbull
      constructor
      · intro hz
        refine ⟨l_price - 3 / 2 *
          (if last.atr.getD 0 = 0 then (h_price - l_price) * (5 / 100)
            else last.atr.getD 0), ?_⟩
        unfold check_signal
        rw [if_neg (not_lt.mpr hlen)]
        simp only [hfs, hlast]
        rw [if_pos hbull, if_pos hz]
      · intro hz
        unfold check_signal
        rw [if_neg (not_lt.mpr hlen)]
        simp only [hfs, hlast]
        rw [if_pos hbull, if_neg hz]
    · intro hbear
      have hnb : ¬(l_idx < h_idx) := by omega
      constructor
      · intro hz
        unfold check_signal
        rw [if_neg (not_lt.mpr hlen)]
        simp only [hfs, hlast]
        rw [if_neg hnb, if_pos hbear, if_pos hz]
      · intro hz
        unfold check_signal
        rw [if_neg (not_lt.mpr hlen)]
        simp only [hfs, hlast]
        rw [if_neg hnb, if_pos hbear, if_neg hz]

/-- C1 witness: the concrete 50-bar bullish frame (range [1, 2], close 1.45
inside [1.382, 1.5]) yields a BUY with anchors [2, 2.272, 2.272], and the
bearish frame (close 1.55 inside [1.5, 1.618]) yields a SELL with anchors
[1, 0.728, 0.728]. -/
theorem check_signal_golden_zone_witness :
    (∃ sl, check_signal dfBull = .dict BUY [ 2, 284 / 125, 284 / 125] (some sl)) ∧
    check_signal dfBear = .dict SELL [ 1, 91 / 125, 91 / 125] none := by
  have hfsB : find_swings dfBull 100 = some (40, 2, 10, 1) := by
    norm_num [find_swings, idxmax, idxmin, dfBull, flatBar, lowBar, highBar,
      lastBar, List.replicate]
  have hlastB : dfBull.getLast? = some lastBar := by
    have hsplit : dfBull =
        (List.replicate 10 flatBar ++ [lowBar] ++ List.replicate 29 flatBar ++
          [highBar] ++ List.replicate 8 flatBar) ++ [lastBar] := by
      simp [dfBull, List.append_assoc]
    rw [hsplit, List.getLast?_concat]
  have hlenB : (50 : ℕ) ≤ dfBull.length := by norm_num [dfBull]
  have hfsS : find_swings dfBear 100 = some (10, 2, 40, 1) := by
    norm_num [find_swings, idxmax, idxmin, dfBear, flatBar, lowBar, highBar,
      lastBarBear, List.replicate]
  have hlastS : dfBear.getLast? = some lastBarBear := by
    have hsplit : dfBear =
        (List.replicate 10 flatBar ++ [highBar] ++ List.replicate 29 flatBar ++
          [lowBar] ++ List.replicate 8 flatBar) ++ [lastBarBear] := by
      simp [dfBear, List.append_assoc]
    rw [hsplit, List.getLast?_concat]
  have hlenS : (50 : ℕ) ≤ dfBear.length := by norm_num [dfBear]
  constructor
  · obtain ⟨sl, hsl⟩ :=
      ((check_signal_golden_zone.2 dfBull 40 10 2 1 lastBar hlenB hfsB hlastB).1
        (by norm_num)).1 (by norm_num [lastBar])
    refine ⟨sl, ?_⟩
    rw [hsl]
    norm_num
  · have hs :=
      ((check_signal_golden_zone.2 dfBear 10 40 2 1 lastBarBear hlenS hfsS hlastS).2
        (by norm_num)).1 (by norm_num [lastBarBear])
    rw [hs]
    norm_num


/-- C9 witness: on the concrete bearish frame the returned SELL signal
carries no stop-loss, and a concrete execution is unchanged when the
signal's sl_custom is swapped. -/
theorem check_signal_sl_custom_spec_witness :
    check_signal dfBear = .dict SELL [ 1, 91 / 125, 91 / 125] none ∧
      execute_trade (.dict SELL [ 1, 91 / 125, 91 / 125] (some 1)) dfExec tickA symA
          10000 100000 noMargin =
        execute_trade (.dict SELL [ 1, 91 / 125, 91 / 125] none) dfExec tickA symA
          10000 100000 noMargin ∧
      (SELL = SELL → (none : Option ℚ) = none) := by
  have h : check_signal dfBear = .dict SELL [ 1, 91 / 125, 91 / 125] none := by
    norm_num [check_signal, find_swings, idxmax, idxmin, dfBear, flatBar, lowBar,
      highBar, lastBarBear, List.replicate, NEUTRAL, BUY, SELL]
  exact ⟨h,
    check_signal_sl_custom_spec.2 SELL [ 1, 91 / 125, 91 / 125] (some 1) none dfExec
      tickA symA 10000 100000 noMargin,
    (check_signal_sl_custom_spec.1 dfBear SELL [ 1, 91 / 125, 91 / 125] none h).1⟩

end RobotTrading
